import Mathlib

/-!
Verification of `scripts/import_ca_cities.py`: a single-run import script that
resolves a table of California city names (network fetch with retries, then a
local CSV, then a hardcoded list), extracts the unique `CITY` column values,
and writes one `pending` record per city to a document store in batches of 400.

Strings are embedded at the character level: Python's `str.lower()` and
single-character `str.replace` act character-wise, which `pyLower` and
`replaceChar` mirror on `String.data`.
-/

/-- A record written for one city: the dict literal passed to `batch.set`
(`name`, `status`, `last_scanned`). `last_scanned` is always `None` at this
stage, embedded as an `Option` that the script never populates. -/
structure CityRecord where
  name : String
  status : String
  last_scanned : Option String
deriving DecidableEq, Repr

/-- Character-wise lowercasing, embedding Python's `str.lower()` on the
ASCII names this script handles. -/
def pyLower (s : String) : String := String.mk (s.data.map Char.toLower)

/-- Replace every occurrence of the character `a` by `b`, embedding Python's
`str.replace` for a single-character pattern. -/
def replaceChar (s : String) (a b : Char) : String :=
  String.mk (s.data.map fun c => if c = a then b else c)

/-- `doc_id = city_name.lower().replace(" ", "_").replace("-", "_")`
(line 123 of the script). -/
def doc_id (c : String) : String := replaceChar (replaceChar (pyLower c) ' ' '_') '-' '_'

/-- Modelled from the spec: `doc_id(c) = lowercase(c).replace(" ", "_").replace("-", "_")`,
the formula of spec §8, stated with the same character-level string primitives. -/
def doc_id_of_spec (c : String) : String :=
  replaceChar (replaceChar (pyLower c) ' ' '_') '-' '_'

/-- The write enqueued by `batch.set(doc_ref, {...})` for one city: the
document key and the record `{name: f"{city_name}, CA", status: "pending",
last_scanned: None}` (lines 123–134). -/
def mkWrite (c : String) : String × CityRecord :=
  (doc_id c, { name := c ++ ", CA", status := "pending", last_scanned := none })

/-- A parsed table (`pandas.DataFrame`): named columns of string values.
Only the column names and the `CITY` column's values are observable here. -/
structure DataFrame where
  columns : List (String × List String)
deriving DecidableEq, Repr

/-- `df.columns.tolist()`. -/
def colNames (df : DataFrame) : List String := df.columns.map Prod.fst

/-- `df[name]`: the values of the named column (the script only reads columns
it has checked are present). -/
def DataFrame.getCol (df : DataFrame) (name : String) : List String :=
  (List.lookup name df.columns).getD []

/-- The hardcoded `fallback_cities` list (lines 63–105 of the script). -/
def fallback_cities : List String :=
  ["Los Angeles", "San Diego", "San Jose", "San Francisco", "Fresno",
   "Sacramento", "Long Beach", "Oakland", "Bakersfield", "Anaheim",
   "Riverside", "Stockton", "Irvine", "Chula Vista", "Fremont",
   "San Bernardino", "Modesto", "Oxnard", "Fontana", "Moreno Valley",
   "Glendale", "Huntington Beach", "Santa Clarita", "Garden Grove",
   "Santa Rosa", "Oceanside", "Rancho Cucamonga", "Ontario", "Elk Grove",
   "Corona", "Lancaster", "Palmdale", "Hayward", "Salinas", "Pomona",
   "Sunnyvale", "Escondido", "Torrance", "Pasadena", "Orange", "Fullerton"]

/-- `pd.DataFrame({"CITY": fallback_cities})` (line 106). -/
def fallbackDf : DataFrame := ⟨[("CITY", fallback_cities)]⟩

/-- Externally observable events of the download loop: an attempted fetch, and
a `time.sleep` of a given number of seconds. -/
inductive FetchEvent where
  | tryFetch : Nat → FetchEvent
  | sleep : Nat → FetchEvent
deriving DecidableEq, Repr

/-- The environment a run executes in: `net i` is the outcome of download
attempt `i` (`none` = any exception: network error, HTTP error status, or
parse failure), and `localFile` describes the CSV next to the script
(`none` = absent, `some none` = present but `pd.read_csv` raises,
`some (some df)` = present and parses to `df`). -/
structure Env where
  net : Nat → Option DataFrame
  localFile : Option (Option DataFrame)

/-- The body of `for attempt in range(1, max_retries + 1)` (lines 38–47):
on success the loop `break`s; on exception it sleeps `2 * attempt` seconds
and continues — the sleep also runs after the last attempt. -/
def fetchGo (net : Nat → Option DataFrame) : List Nat → Option DataFrame × List FetchEvent
  | [] => (none, [])
  | a :: rest =>
    match net a with
    | some df => (some df, [FetchEvent.tryFetch a])
    | none =>
      let r := fetchGo net rest
      (r.1, FetchEvent.tryFetch a :: FetchEvent.sleep (2 * a) :: r.2)

/-- The download loop with `max_retries = 3`: attempts 1, 2, 3. -/
def fetchLoop (net : Nat → Option DataFrame) : Option DataFrame × List FetchEvent :=
  fetchGo net [1, 2, 3]

/-- Outcome of data-source resolution: a table, or the `sys.exit(1)` taken
when the local CSV exists but cannot be read (line 58). -/
inductive ResolveOut where
  | ok : DataFrame → ResolveOut
  | fatalLocal : ResolveOut
deriving DecidableEq, Repr

/-- Lines 38–106: network loop, then the local-file fallback, then the
hardcoded list. -/
def resolveDf (env : Env) : ResolveOut :=
  match (fetchLoop env.net).1 with
  | some df => ResolveOut.ok df
  | none =>
    match env.localFile with
    | some (some df) => ResolveOut.ok df
    | some none => ResolveOut.fatalLocal
    | none => ResolveOut.ok fallbackDf

/-- Helper of `pdUnique`: `seen` is the set of values already emitted. -/
def uniqueAux : List String → List String → List String
  | _, [] => []
  | seen, x :: xs =>
    if x ∈ seen then uniqueAux seen xs else x :: uniqueAux (x :: seen) xs

/-- `pandas.Series.unique()`: the values in first-seen order with later
duplicates dropped, compared by exact equality. -/
def pdUnique (l : List String) : List String := uniqueAux [] l

/-- Modelled from the spec: "deduplicate while preserving first-seen order"
(spec §4.2), as a left fold that appends each value not yet kept. -/
def dedupFirstSeen (l : List String) : List String :=
  l.foldl (fun acc x => if x ∈ acc then acc else acc ++ [x]) []

/-- `df["CITY"].unique().tolist()` (line 113). -/
def normalizeCities (df : DataFrame) : List String := pdUnique (df.getCol "CITY")

/-- The batch-upload loop (lines 121–146): enqueue one write per city,
commit whenever the running count hits a multiple of 400, and commit the
remainder at the end when the count is not a multiple of 400. Returns the
list of committed batches in commit order. -/
def writerGo : List String → List (String × CityRecord) → Nat → List (List (String × CityRecord))
  | [], batch, count => if count % 400 ≠ 0 then [batch] else []
  | c :: rest, batch, count =>
    let b := batch ++ [mkWrite c]
    let n := count + 1
    if n % 400 = 0 then b :: writerGo rest [] n else writerGo rest b n

/-- The committed batches of a run over the given city list, starting from an
empty batch and `count = 0`. -/
def commitsOfRun (cities : List String) : List (List (String × CityRecord)) :=
  writerGo cities [] 0

/-- Result of the whole script: the `sys.exit(1)` paths, or success carrying
the unique city list and the committed batches. `fatalMissingCity` carries the
column names the script reports (line 110). -/
inductive RunResult where
  | fatalLocalCsv : RunResult
  | fatalMissingCity : List String → RunResult
  | success : List String → List (List (String × CityRecord)) → RunResult
deriving DecidableEq, Repr

/-- The whole of `import_ca_cities()`: resolve a table, check the `CITY`
column, normalize, batch-write. -/
def importRun (env : Env) : RunResult :=
  match resolveDf env with
  | ResolveOut.fatalLocal => RunResult.fatalLocalCsv
  | ResolveOut.ok df =>
    if "CITY" ∈ colNames df then
      RunResult.success (normalizeCities df) (commitsOfRun (normalizeCities df))
    else
      RunResult.fatalMissingCity (colNames df)

/-- Process exit status: `sys.exit(1)` on the fatal paths, 0 on normal
return. -/
def exitCode : RunResult → Nat
  | RunResult.success _ _ => 0
  | _ => 1

/-- The batches committed by a run; the fatal paths commit nothing (both
`sys.exit(1)` calls precede the upload loop). -/
def runCommits : RunResult → List (List (String × CityRecord))
  | RunResult.success _ cs => cs
  | _ => []

/-- The document store: contents of the `config_cities` collection, keyed by
document id. -/
def Store : Type := String → Option CityRecord

/-- `batch.set(doc_ref, record)` once committed: an unconditional overwrite
of the document at that key. -/
def applyWrite (s : Store) (w : String × CityRecord) : Store :=
  fun id => if id = w.1 then some w.2 else s id

/-- Committing one batch applies its writes in order. -/
def applyBatch (s : Store) (b : List (String × CityRecord)) : Store :=
  b.foldl applyWrite s

/-- A full run's effect on the store: the committed batches in order. -/
def applyCommits (s : Store) (cs : List (List (String × CityRecord))) : Store :=
  cs.foldl applyBatch s

/-- Whether a fetch-loop event is a download attempt. -/
def isTryFetch : FetchEvent → Bool
  | FetchEvent.tryFetch _ => true
  | _ => false

/-- The event trace of the download loop, by cases on which attempt (if any)
first succeeds: each failed attempt is followed by its `2 * attempt`-second
sleep, including a failed final attempt. -/
def expectedTrace (net : Nat → Option DataFrame) : List FetchEvent :=
  match net 1 with
  | some _ => [FetchEvent.tryFetch 1]
  | none =>
    FetchEvent.tryFetch 1 :: FetchEvent.sleep 2 ::
      match net 2 with
      | some _ => [FetchEvent.tryFetch 2]
      | none =>
        FetchEvent.tryFetch 2 :: FetchEvent.sleep 4 ::
          match net 3 with
          | some _ => [FetchEvent.tryFetch 3]
          | none => [FetchEvent.tryFetch 3, FetchEvent.sleep 6]

/-- A one-row table whose only column is `CITY`; used to exercise the
success path. -/
def dfGood : DataFrame := ⟨[("CITY", ["Los Angeles"])]⟩

/-- A parseable table with no `CITY` column; used to exercise the
schema-mismatch path. -/
def dfTown : DataFrame := ⟨[("TOWN", ["Springfield"])]⟩

/-- Environment whose first download attempt yields `dfGood`. -/
def envGood : Env := ⟨fun _ => some dfGood, none⟩

/-- Environment whose first download attempt yields `dfTown` while a good
local CSV is also present. -/
def envTown : Env := ⟨fun _ => some dfTown, some (some dfGood)⟩

/-- Environment where every download attempt fails and no local CSV
exists. -/
def envAllFail : Env := ⟨fun _ => none, none⟩

/-- Environment whose first download attempt fails and whose second attempt
yields `dfTown`, while a good local CSV is also present. -/
def envTown2 : Env := ⟨fun i => if i = 1 then none else some dfTown, some (some dfGood)⟩

/-! ## Helper lemmas -/

theorem writerGo_map_length (cities : List String) :
    ∀ (batch : List (String × CityRecord)) (count : Nat),
      batch.length = count % 400 →
      (writerGo cities batch count).map List.length =
        List.replicate ((count % 400 + cities.length) / 400) 400 ++
          (if (count % 400 + cities.length) % 400 ≠ 0
            then [(count % 400 + cities.length) % 400] else []) := by
  induction cities with
  | nil =>
    intro batch count h
    simp only [writerGo, List.length_nil, Nat.add_zero]
    have hlt : count % 400 < 400 := Nat.mod_lt _ (by omega)
    by_cases h0 : count % 400 = 0
    · simp [h0]
    · have : (count % 400) / 400 = 0 := Nat.div_eq_of_lt hlt
      have h400 : (count % 400) % 400 = count % 400 := Nat.mod_eq_of_lt hlt
      simp [h0, this, h400, h]
  | cons c rest ih =>
    intro batch count h
    have hlt : count % 400 < 400 := Nat.mod_lt _ (by omega)
    simp only [writerGo]
    by_cases h0 : (count + 1) % 400 = 0
    · have hr : count % 400 = 399 := by omega
      have ihz := ih [] (count + 1) (by simp [h0])
      simp only [h0, if_pos, List.map_cons, ihz, List.length_append, h, hr,
        List.length_cons, List.length_nil]
      have e1 : (399 + (rest.length + 1)) = 400 + rest.length := by omega
      have e2 : (400 + rest.length) / 400 = rest.length / 400 + 1 := by omega
      have e3 : (400 + rest.length) % 400 = rest.length % 400 := by omega
      have e4 : ((count + 1) % 400 + rest.length) = rest.length := by omega
      simp [e1, e2, e3, e4, List.replicate_succ]
    · have hr1 : count % 400 + 1 = (count + 1) % 400 := by omega
      have harg : (count + 1) % 400 + rest.length = count % 400 + (rest.length + 1) := by
        omega
      have ihb := ih (batch ++ [mkWrite c]) (count + 1)
        (by simp [List.length_append, h, hr1])
      rw [harg] at ihb
      rw [if_neg h0, ihb, List.length_cons]

theorem commitsOfRun_map_length (cities : List String) :
    (commitsOfRun cities).map List.length =
      List.replicate (cities.length / 400) 400 ++
        (if cities.length % 400 ≠ 0 then [cities.length % 400] else []) := by
  have := writerGo_map_length cities [] 0 (by simp)
  simpa [commitsOfRun] using this

theorem writerGo_flatten (cities : List String) :
    ∀ (batch : List (String × CityRecord)) (count : Nat),
      batch.length = count % 400 →
      (writerGo cities batch count).flatten = batch ++ cities.map mkWrite := by
  induction cities with
  | nil =>
    intro batch count h
    simp only [writerGo, List.map_nil, List.append_nil]
    by_cases h0 : count % 400 = 0
    · have : batch = [] := List.length_eq_zero.mp (by omega)
      simp [h0, this]
    · simp [h0]
  | cons c rest ih =>
    intro batch count h
    simp only [writerGo]
    by_cases h0 : (count + 1) % 400 = 0
    · have ihz := ih [] (count + 1) (by simp [h0])
      simp [h0, ihz]
    · have hr1 : count % 400 + 1 = (count + 1) % 400 := by omega
      have ihb := ih (batch ++ [mkWrite c]) (count + 1)
        (by simp [List.length_append, h, hr1])
      simp [h0, ihb]

theorem commitsOfRun_flatten (cities : List String) :
    (commitsOfRun cities).flatten = cities.map mkWrite := by
  have := writerGo_flatten cities [] 0 (by simp)
  simpa [commitsOfRun] using this

theorem uniqueAux_eq_foldl (xs : List String) :
    ∀ (seen acc : List String), (∀ a, a ∈ seen ↔ a ∈ acc) →
      acc ++ uniqueAux seen xs =
        xs.foldl (fun acc x => if x ∈ acc then acc else acc ++ [x]) acc := by
  induction xs with
  | nil => intro seen acc _; simp [uniqueAux]
  | cons x xs ih =>
    intro seen acc hmem
    simp only [uniqueAux, List.foldl_cons]
    by_cases hx : x ∈ seen
    · have hx' : x ∈ acc := (hmem x).mp hx
      simp only [hx, if_pos, hx']
      exact ih seen acc hmem
    · have hx' : x ∉ acc := fun hc => hx ((hmem x).mpr hc)
      simp only [hx, if_neg, hx', if_false, ite_false]
      have := ih (x :: seen) (acc ++ [x]) (by
        intro a
        simp only [List.mem_cons, List.mem_append, List.mem_singleton, hmem a]
        tauto)
      simpa using this

theorem pdUnique_eq_dedupFirstSeen (l : List String) :
    pdUnique l = dedupFirstSeen l := by
  have := uniqueAux_eq_foldl l [] [] (by simp)
  simpa [pdUnique, dedupFirstSeen] using this

theorem uniqueAux_sublist (xs : List String) :
    ∀ seen, (uniqueAux seen xs).Sublist xs := by
  induction xs with
  | nil => intro seen; simp [uniqueAux]
  | cons x xs ih =>
    intro seen
    simp only [uniqueAux]
    by_cases hx : x ∈ seen
    · simp only [hx, if_pos]
      exact (ih seen).cons x
    · simp only [hx, if_neg, ite_false]
      exact (ih (x :: seen)).cons₂ x

theorem pdUnique_sublist (l : List String) : (pdUnique l).Sublist l :=
  uniqueAux_sublist l []

theorem foldl_applyWrite_unwritten (ws : List (String × CityRecord)) :
    ∀ (s : Store) (id : String), (∀ w ∈ ws, w.1 ≠ id) →
      ws.foldl applyWrite s id = s id := by
  induction ws with
  | nil => intro s id _; rfl
  | cons w ws ih =>
    intro s id hw
    have h1 : w.1 ≠ id := hw w (by simp)
    have := ih (applyWrite s w) id (fun w' hw' => hw w' (by simp [hw']))
    rw [List.foldl_cons, this, applyWrite, if_neg (fun hc => h1 hc.symm)]

theorem foldl_applyWrite_congr (ws : List (String × CityRecord)) :
    ∀ (s₁ s₂ : Store), (∀ id, (∃ w ∈ ws, w.1 = id) ∨ s₁ id = s₂ id) →
      ∀ id, ws.foldl applyWrite s₁ id = ws.foldl applyWrite s₂ id := by
  induction ws with
  | nil =>
    intro s₁ s₂ h id
    rcases h id with ⟨w, hw, _⟩ | he
    · exact absurd hw (List.not_mem_nil w)
    · exact he
  | cons w ws ih =>
    intro s₁ s₂ h id
    simp only [List.foldl_cons]
    refine ih (applyWrite s₁ w) (applyWrite s₂ w) (fun id' => ?_) id
    by_cases hin : ∃ w' ∈ ws, w'.1 = id'
    · exact Or.inl hin
    · refine Or.inr ?_
      unfold applyWrite
      by_cases hid : id' = w.1
      · simp [hid]
      · rw [if_neg hid, if_neg hid]
        rcases h id' with ⟨w', hw', he'⟩ | he
        · rcases List.mem_cons.mp hw' with rfl | hmem
          · exact absurd he' (fun hc => hid hc.symm)
          · exact absurd ⟨w', hmem, he'⟩ hin
        · exact he

theorem foldl_applyWrite_idem (ws : List (String × CityRecord)) (s : Store) :
    ws.foldl applyWrite (ws.foldl applyWrite s) = ws.foldl applyWrite s := by
  funext id
  have hcongr := foldl_applyWrite_congr ws (ws.foldl applyWrite s) s (fun id' => by
    by_cases hin : ∃ w ∈ ws, w.1 = id'
    · exact Or.inl hin
    · refine Or.inr (foldl_applyWrite_unwritten ws s id' ?_)
      intro w hw
      exact fun hc => hin ⟨w, hw, hc⟩)
  exact hcongr id

theorem applyCommits_eq_flatten (s : Store) (cs : List (List (String × CityRecord))) :
    applyCommits s cs = cs.flatten.foldl applyWrite s := by
  rw [List.foldl_flatten]
  rfl

theorem importRun_success_inv (env : Env) (cities : List String)
    (cs : List (List (String × CityRecord)))
    (h : importRun env = RunResult.success cities cs) :
    cs = commitsOfRun cities ∧ ∃ df, resolveDf env = ResolveOut.ok df ∧
      "CITY" ∈ colNames df ∧ cities = normalizeCities df := by
  unfold importRun at h
  cases hr : resolveDf env with
  | fatalLocal =>
    rw [hr] at h
    have h' : RunResult.fatalLocalCsv = RunResult.success cities cs := h
    exact absurd h' (by simp)
  | ok df =>
    rw [hr] at h
    have h' : (if "CITY" ∈ colNames df
        then RunResult.success (normalizeCities df) (commitsOfRun (normalizeCities df))
        else RunResult.fatalMissingCity (colNames df)) = RunResult.success cities cs := h
    by_cases hc : "CITY" ∈ colNames df
    · rw [if_pos hc] at h'
      obtain ⟨h1, h2⟩ := RunResult.success.inj h'
      exact ⟨h2.symm.trans (by rw [h1]), df, rfl, hc, h1.symm⟩
    · rw [if_neg hc] at h'
      exact absurd h' (by simp)

theorem fetchLoop_trace (net : Nat → Option DataFrame) :
    (fetchLoop net).2 = expectedTrace net := by
  unfold fetchLoop expectedTrace
  cases h1 : net 1 with
  | some df => simp [fetchGo, h1]
  | none =>
    cases h2 : net 2 with
    | some df => simp [fetchGo, h1, h2]
    | none =>
      cases h3 : net 3 with
      | some df => simp [fetchGo, h1, h2, h3]
      | none => simp [fetchGo, h1, h2, h3]

theorem resolveDf_of_fetch (env : Env) (df : DataFrame)
    (h : (fetchLoop env.net).1 = some df) : resolveDf env = ResolveOut.ok df := by
  unfold resolveDf
  rw [h]

theorem resolveDf_net1 (env : Env) (df : DataFrame) (h : env.net 1 = some df) :
    resolveDf env = ResolveOut.ok df := by
  simp [resolveDf, fetchLoop, fetchGo, h]

theorem resolveDf_allFail (env : Env) (h1 : env.net 1 = none) (h2 : env.net 2 = none)
    (h3 : env.net 3 = none) (hl : env.localFile = none) :
    resolveDf env = ResolveOut.ok fallbackDf := by
  simp [resolveDf, fetchLoop, fetchGo, h1, h2, h3, hl]

theorem pdUnique_fallback : pdUnique fallback_cities = fallback_cities := by decide

theorem importRun_allFail (env : Env) (h1 : env.net 1 = none) (h2 : env.net 2 = none)
    (h3 : env.net 3 = none) (hl : env.localFile = none) :
    importRun env = RunResult.success fallback_cities (commitsOfRun fallback_cities) := by
  unfold importRun
  rw [resolveDf_allFail env h1 h2 h3 hl]
  have hcol : "CITY" ∈ colNames fallbackDf := by decide
  have hn : normalizeCities fallbackDf = fallback_cities := by
    show pdUnique (fallbackDf.getCol "CITY") = fallback_cities
    rw [show fallbackDf.getCol "CITY" = fallback_cities from rfl, pdUnique_fallback]
  show (if "CITY" ∈ colNames fallbackDf
      then RunResult.success (normalizeCities fallbackDf)
        (commitsOfRun (normalizeCities fallbackDf))
      else RunResult.fatalMissingCity (colNames fallbackDf)) =
    RunResult.success fallback_cities (commitsOfRun fallback_cities)
  rw [if_pos hcol, hn]

theorem uniqueAux_nodup_notmem (xs : List String) :
    ∀ seen, (uniqueAux seen xs).Nodup ∧ ∀ a ∈ uniqueAux seen xs, a ∉ seen := by
  induction xs with
  | nil => intro seen; simp [uniqueAux]
  | cons x xs ih =>
    intro seen
    simp only [uniqueAux]
    by_cases hx : x ∈ seen
    · simpa [hx] using ih seen
    · obtain ⟨hnd, hni⟩ := ih (x :: seen)
      simp only [hx, ite_false, List.nodup_cons]
      refine ⟨⟨fun hc => ?_, hnd⟩, ?_⟩
      · exact hni x hc (by simp)
      · intro a ha
        rcases List.mem_cons.mp ha with rfl | hmem
        · exact hx
        · exact fun hc => hni a hmem (by simp [hc])

theorem pdUnique_nodup (l : List String) : (pdUnique l).Nodup :=
  (uniqueAux_nodup_notmem l []).1

theorem importRun_missing (env : Env) (df : DataFrame)
    (hr : resolveDf env = ResolveOut.ok df) (hc : "CITY" ∉ colNames df) :
    importRun env = RunResult.fatalMissingCity (colNames df) := by
  unfold importRun
  rw [hr]
  show (if "CITY" ∈ colNames df
      then RunResult.success (normalizeCities df) (commitsOfRun (normalizeCities df))
      else RunResult.fatalMissingCity (colNames df)) =
    RunResult.fatalMissingCity (colNames df)
  rw [if_neg hc]

/-- The empty document store. -/
def emptyStore : Store := fun _ => none

/-! ## Claim theorems -/

/-- C1: in every successful run, the write enqueued for each processed city
has `name` equal to the display name with the fixed `", CA"` suffix,
`status = "pending"` and `last_scanned = null`, and applying that write to any
prior store state leaves exactly that record at the city's key (the write is
an unconditional overwrite). -/
theorem C1_record_invariant (env : Env) (cities : List String)
    (cs : List (List (String × CityRecord)))
    (h : importRun env = RunResult.success cities cs) :
    ∀ c ∈ cities,
      (doc_id c,
          ({ name := c ++ ", CA", status := "pending", last_scanned := none } : CityRecord)) ∈
        cs.flatten ∧
      ∀ s : Store,
        applyWrite s
            (doc_id c,
              { name := c ++ ", CA", status := "pending", last_scanned := none })
            (doc_id c) =
          some { name := c ++ ", CA", status := "pending", last_scanned := none } := by
  intro c hc
  obtain ⟨hcs, _⟩ := importRun_success_inv env cities cs h
  constructor
  · rw [hcs, commitsOfRun_flatten]
    exact List.mem_map_of_mem mkWrite hc
  · intro s
    simp [applyWrite]

theorem C1_record_invariant_witness :
    (doc_id "Los Angeles",
        ({ name := "Los Angeles" ++ ", CA", status := "pending", last_scanned := none } : CityRecord)) ∈
      (commitsOfRun (normalizeCities dfGood)).flatten ∧
    applyWrite emptyStore
        (doc_id "Los Angeles",
          { name := "Los Angeles" ++ ", CA", status := "pending", last_scanned := none })
        (doc_id "Los Angeles") =
      some { name := "Los Angeles" ++ ", CA", status := "pending", last_scanned := none } := by
  have := C1_record_invariant envGood (normalizeCities dfGood)
    (commitsOfRun (normalizeCities dfGood)) rfl "Los Angeles" (by decide)
  exact ⟨this.1, this.2 emptyStore⟩

/-- C2: `doc_id` agrees with the spec formula
`lowercase(c).replace(" ", "_").replace("-", "_")`, acts character-wise by
lowercasing and sending each space and each hyphen to an underscore, and is
deterministic (equal inputs give equal document keys). -/
theorem C2_doc_id_formula :
    (∀ c, doc_id c = doc_id_of_spec c) ∧
    (∀ c : String, (doc_id c).data =
      c.data.map (fun ch => if ch.toLower = ' ' then '_'
        else if ch.toLower = '-' then '_' else ch.toLower)) ∧
    ∀ c₁ c₂, c₁ = c₂ → doc_id c₁ = doc_id c₂ := by
  refine ⟨fun _ => rfl, fun c => ?_, fun c₁ c₂ h => by rw [h]⟩
  simp only [doc_id, replaceChar, pyLower, List.map_map]
  have hfun : ((fun c => if c = '-' then '_' else c) ∘
      (fun c => if c = ' ' then '_' else c) ∘ Char.toLower) =
      fun ch => if ch.toLower = ' ' then '_'
        else if ch.toLower = '-' then '_' else ch.toLower := by
    funext ch
    show (if (if ch.toLower = ' ' then '_' else ch.toLower) = '-' then '_'
        else if ch.toLower = ' ' then '_' else ch.toLower) =
      if ch.toLower = ' ' then '_'
        else if ch.toLower = '-' then '_' else ch.toLower
    by_cases h1 : ch.toLower = ' '
    · rw [h1]
      decide
    · by_cases h2 : ch.toLower = '-'
      · rw [h2]
        decide
      · rw [if_neg h1, if_neg h2, if_neg h1]
  rw [hfun]

theorem C2_doc_id_formula_witness :
    doc_id "San-Jose" = doc_id_of_spec "San-Jose" ∧
    doc_id "San-Jose" = doc_id "San-Jose" ∧
    doc_id "San-Jose" = "san_jose" :=
  ⟨C2_doc_id_formula.1 "San-Jose", C2_doc_id_formula.2.2 "San-Jose" "San-Jose" rfl,
    by decide⟩

/-- C3: the writer's committed batch sizes are fully determined by the input
length: one batch of 400 for each time the running count reaches a multiple of
400, and a final partial batch exactly when the total is not divisible by 400;
in particular 801 names give commits of sizes 400, 400, 1. -/
theorem C3_batch_sizes :
    (∀ l : List String, (commitsOfRun l).map List.length =
      List.replicate (l.length / 400) 400 ++
        (if l.length % 400 ≠ 0 then [l.length % 400] else [])) ∧
    ∀ l : List String, l.length = 801 →
      (commitsOfRun l).map List.length = [400, 400, 1] := by
  refine ⟨commitsOfRun_map_length, fun l hl => ?_⟩
  rw [commitsOfRun_map_length, hl]
  decide

theorem C3_batch_sizes_witness :
    (commitsOfRun (List.replicate 801 "Los Angeles")).map List.length = [400, 400, 1] :=
  C3_batch_sizes.2 (List.replicate 801 "Los Angeles")
    (List.length_replicate 801 "Los Angeles")

/-- C4: the normalizer is exactly first-seen-order deduplication of the `CITY`
column: it agrees with the spec's fold, returns a duplicate-free subsequence of
the column values (so values are kept verbatim, with no case-folding or
trimming), and on `["Los Angeles", "Irvine", "Los Angeles"]` yields
`["Los Angeles", "Irvine"]`. -/
theorem C4_normalizer :
    (∀ df : DataFrame, normalizeCities df = dedupFirstSeen (df.getCol "CITY") ∧
      (normalizeCities df).Sublist (df.getCol "CITY") ∧
      (normalizeCities df).Nodup) ∧
    normalizeCities ⟨[("CITY", ["Los Angeles", "Irvine", "Los Angeles"])]⟩ =
      ["Los Angeles", "Irvine"] :=
  ⟨fun df => ⟨pdUnique_eq_dedupFirstSeen _, pdUnique_sublist _, pdUnique_nodup _⟩,
    by decide⟩

/-- C5: when the resolved table has no `CITY` column, the run terminates on
the fatal path that reports exactly the table's column names, the exit status
is non-zero, and no batch is ever committed. -/
theorem C5_missing_city_fatal (env : Env) (df : DataFrame)
    (hr : resolveDf env = ResolveOut.ok df) (hc : "CITY" ∉ colNames df) :
    importRun env = RunResult.fatalMissingCity (colNames df) ∧
    exitCode (importRun env) = 1 ∧
    runCommits (importRun env) = [] := by
  have him := importRun_missing env df hr hc
  exact ⟨him, by rw [him]; rfl, by rw [him]; rfl⟩

theorem C5_missing_city_fatal_witness :
    importRun envTown = RunResult.fatalMissingCity (colNames dfTown) ∧
    exitCode (importRun envTown) = 1 ∧
    runCommits (importRun envTown) = [] :=
  C5_missing_city_fatal envTown dfTown rfl (by decide)

/-- C6: when all three download attempts fail and no local CSV exists, the
resolver yields the hardcoded table, the run succeeds (exit status 0) with
the 41 fallback cities, and exactly 41 document writes are committed. -/
theorem C6_hardcoded_fallback (env : Env) (h1 : env.net 1 = none)
    (h2 : env.net 2 = none) (h3 : env.net 3 = none) (hl : env.localFile = none) :
    resolveDf env = ResolveOut.ok fallbackDf ∧
    importRun env = RunResult.success fallback_cities (commitsOfRun fallback_cities) ∧
    exitCode (importRun env) = 0 ∧
    fallback_cities.length = 41 ∧
    (runCommits (importRun env)).flatten.length = 41 := by
  have him := importRun_allFail env h1 h2 h3 hl
  refine ⟨resolveDf_allFail env h1 h2 h3 hl, him, by rw [him]; rfl, by decide, ?_⟩
  rw [him]
  show (commitsOfRun fallback_cities).flatten.length = 41
  rw [commitsOfRun_flatten, List.length_map]
  decide

theorem C6_hardcoded_fallback_witness :
    resolveDf envAllFail = ResolveOut.ok fallbackDf ∧
    importRun envAllFail =
      RunResult.success fallback_cities (commitsOfRun fallback_cities) ∧
    exitCode (importRun envAllFail) = 0 ∧
    fallback_cities.length = 41 ∧
    (runCommits (importRun envAllFail)).flatten.length = 41 :=
  C6_hardcoded_fallback envAllFail rfl rfl rfl rfl

/-- C7 counterexample: the first download attempt returns a parseable table
with columns `["TOWN"]` (no `CITY`), while a good local CSV is available; the
claimed fall-through to the local tier does not happen — the fetch loop stops
at attempt 1 with that table and the run exits fatally instead of using the
local fallback. -/
theorem C7_counterexample :
    fetchLoop envTown.net = (some dfTown, [FetchEvent.tryFetch 1]) ∧
    "CITY" ∉ colNames dfTown ∧
    envTown.localFile = some (some dfGood) ∧
    "CITY" ∈ colNames dfGood ∧
    importRun envTown = RunResult.fatalMissingCity ["TOWN"] ∧
    exitCode (importRun envTown) = 1 :=
  ⟨rfl, by decide, rfl, by decide, rfl, rfl⟩

/-- C7 (amended): a download attempt counts as success as soon as the HTTP
request succeeds and the body parses as tabular data — the `CITY` column is
not checked at that point: whenever any of the (up to 3) attempts returns a
table, resolution uses that table; if it lacks `CITY`, the run terminates
fatally after resolution instead of falling through to the next fallback
tier. -/
theorem C7_fetch_success_no_city_check (env : Env) (df : DataFrame)
    (h : (fetchLoop env.net).1 = some df) :
    resolveDf env = ResolveOut.ok df ∧
    ("CITY" ∉ colNames df →
      importRun env = RunResult.fatalMissingCity (colNames df)) := by
  have hres := resolveDf_of_fetch env df h
  exact ⟨hres, fun hc => importRun_missing env df hres hc⟩

theorem C7_fetch_success_no_city_check_witness :
    (resolveDf envTown = ResolveOut.ok dfTown ∧
      importRun envTown = RunResult.fatalMissingCity (colNames dfTown)) ∧
    (resolveDf envTown2 = ResolveOut.ok dfTown ∧
      importRun envTown2 = RunResult.fatalMissingCity (colNames dfTown)) :=
  ⟨⟨(C7_fetch_success_no_city_check envTown dfTown rfl).1,
      (C7_fetch_success_no_city_check envTown dfTown rfl).2 (by decide)⟩,
    ⟨(C7_fetch_success_no_city_check envTown2 dfTown rfl).1,
      (C7_fetch_success_no_city_check envTown2 dfTown rfl).2 (by decide)⟩⟩

/-- C8 counterexample: when all three attempts fail, the loop's event trace
ends with a 6-second sleep after the third (final) failed attempt, so a
backoff delay does occur after the final failed attempt. -/
theorem C8_counterexample :
    (fetchLoop envAllFail.net).2 =
      [FetchEvent.tryFetch 1, FetchEvent.sleep 2, FetchEvent.tryFetch 2,
        FetchEvent.sleep 4, FetchEvent.tryFetch 3, FetchEvent.sleep 6] ∧
    (fetchLoop envAllFail.net).2.getLast? = some (FetchEvent.sleep 6) :=
  ⟨rfl, rfl⟩

/-- C8 (amended): the download is attempted at most 3 times, and a sleep of
`2 * attempt` seconds follows every failed attempt — including the final one
(the trace of the loop is exactly `expectedTrace`). -/
theorem C8_retry_schedule (net : Nat → Option DataFrame) :
    (fetchLoop net).2 = expectedTrace net ∧
    ((fetchLoop net).2.filter isTryFetch).length ≤ 3 := by
  refine ⟨fetchLoop_trace net, ?_⟩
  rw [fetchLoop_trace net]
  unfold expectedTrace
  cases net 1 <;> cases net 2 <;> cases net 3 <;> simp [isTryFetch]

/-- C9: the writes of a successful run are a function of the normalized city
list alone, and replaying the run's commits over the store it already
produced changes nothing — re-running the import is idempotent on the final
document state. -/
theorem C9_rerun_idempotent (env : Env) (cities : List String)
    (cs : List (List (String × CityRecord)))
    (h : importRun env = RunResult.success cities cs) :
    cs.flatten = cities.map mkWrite ∧
    ∀ s₀ : Store, applyCommits (applyCommits s₀ cs) cs = applyCommits s₀ cs := by
  obtain ⟨hcs, _⟩ := importRun_success_inv env cities cs h
  constructor
  · rw [hcs, commitsOfRun_flatten]
  · intro s₀
    rw [applyCommits_eq_flatten, applyCommits_eq_flatten]
    exact foldl_applyWrite_idem cs.flatten s₀

theorem C9_rerun_idempotent_witness :
    (commitsOfRun (normalizeCities dfGood)).flatten =
      (normalizeCities dfGood).map mkWrite ∧
    applyCommits (applyCommits emptyStore (commitsOfRun (normalizeCities dfGood)))
        (commitsOfRun (normalizeCities dfGood)) =
      applyCommits emptyStore (commitsOfRun (normalizeCities dfGood)) := by
  have := C9_rerun_idempotent envGood (normalizeCities dfGood)
    (commitsOfRun (normalizeCities dfGood)) rfl
  exact ⟨this.1, this.2 emptyStore⟩

/-- C10: the hardcoded-fallback table has exactly the single column `CITY`,
so on the fallback path the missing-`CITY` fatal exit cannot be taken: the
run always reaches the normalizer and writer and succeeds. -/
theorem C10_fallback_unreachable_fatal :
    colNames fallbackDf = ["CITY"] ∧
    ∀ env : Env, env.net 1 = none → env.net 2 = none → env.net 3 = none →
      env.localFile = none →
      (∀ cols : List String, importRun env ≠ RunResult.fatalMissingCity cols) ∧
      ∃ cities cs, importRun env = RunResult.success cities cs := by
  refine ⟨rfl, fun env h1 h2 h3 hl => ?_⟩
  have him := importRun_allFail env h1 h2 h3 hl
  constructor
  · intro cols hc
    rw [him] at hc
    exact absurd hc (by simp)
  · exact ⟨_, _, him⟩

theorem C10_fallback_unreachable_fatal_witness :
    (importRun envAllFail ≠ RunResult.fatalMissingCity ["TOWN"]) ∧
    ∃ cities cs, importRun envAllFail = RunResult.success cities cs :=
  ⟨(C10_fallback_unreachable_fatal.2 envAllFail rfl rfl rfl rfl).1 ["TOWN"],
    (C10_fallback_unreachable_fatal.2 envAllFail rfl rfl rfl rfl).2⟩
